import Mathlib

/-!
Shallow embedding of the plasma-wallet-tracker repository (Go) for
verification of its specification claims.

Blockchain side (internal/infrastructure/blockchain/plasma_client.go,
erc20.go): transfer extraction, involvement filter, token-symbol
resolution with its memo cache.

Usecase side (internal/usecase/wallet_tracker.go): the wallet listener
manager state (listeners map, subscribers map) and its operations
AddWallet, RemoveWallet, stopAllListeners, handleTransaction.

Machine addresses (go-ethereum common.Address, 20 bytes) are modelled as
Nat values below 2^160; 32-byte log topics as Nat values below 2^256.
common.HexToAddress of a 32-byte topic's hex keeps the last 20 bytes,
i.e. reduces the topic modulo 2^160.  The checksummed hex rendering
common.Address.Hex is injective on addresses; where the Go code stores
an address as its hex string and later decodes it back with
common.HexToAddress (domain.Transfer fields), the model stores the
address value itself.  A transaction with no recipient renders as the
empty string, which HexToAddress decodes to the zero address, so a
missing recipient round-trips to address 0 in stored transfers.
-/

namespace Plasma

/-- 20-byte EVM account address (go-ethereum common.Address). -/
abbrev EthAddr := Nat

/-- 32-byte log topic word (go-ethereum common.Hash). -/
abbrev Topic := Nat

/-- ERC20 Transfer event signature hash (erc20.go, transferEventSignature). -/
def transferEventSignature : Topic :=
  0xddf252ad1be2c89b69c2b068fc378daa952ba7f163c4a11628f55a4df523b3ef

/-- A receipt event log (go-ethereum types.Log): emitting contract
address, topics, raw data payload bytes. -/
structure EthLog where
  address : EthAddr
  topics : List Topic
  data : List Nat
deriving Repr, DecidableEq

/-- A blockchain transaction as consumed by the client: `sender` is the
result of types.Sender (none when signature recovery fails), `recipient`
is tx.To() (none for contract creation), `value` the carried native
value. -/
structure EthTx where
  hash : String
  sender : Option EthAddr
  recipient : Option EthAddr
  value : Nat
  gasPrice : Nat
deriving Repr, DecidableEq

/-- A transaction receipt (the fields the client reads). -/
structure EthReceipt where
  logs : List EthLog
  blockNumber : Nat
  gasUsed : Nat
deriving Repr, DecidableEq

/-- common.HexToAddress applied to a 32-byte topic's hex keeps the last
20 bytes. -/
def topicToAddr (t : Topic) : EthAddr := t % 2 ^ 160

/-- big.Int.SetBytes: big-endian unsigned interpretation of a byte slice. -/
def bytesToNat (bs : List Nat) : Nat := bs.foldl (fun acc b => acc * 256 + b) 0

/-- The log-shape test used in both isAddressInvolved and
extractAllTransfers: len(log.Topics) >= 3 && log.Topics[0] ==
transferEventSignature. -/
def isTransferLog (log : EthLog) : Bool :=
  decide (3 ≤ log.topics.length) && decide (log.topics.headD 0 = transferEventSignature)

/-- domain.Transfer.  The Go struct stores From/To/TokenAddress as hex
strings; the model stores the address values those strings decode to
(see module comment). -/
structure Transfer where
  txHash : String
  fromAddr : EthAddr
  toAddr : EthAddr
  value : Nat
  tokenSymbol : String
  tokenAddress : EthAddr
  logIndex : Int
deriving Repr, DecidableEq

/-- The token-symbol memo cache of PlasmaClient (map common.Address ->
string), as an association list keyed by address. -/
abbrev TokenCache := List (EthAddr × String)

def cacheGet : TokenCache → EthAddr → Option String
  | [], _ => none
  | p :: rest, a => if p.1 = a then some p.2 else cacheGet rest a

def cacheSet : TokenCache → EthAddr → String → TokenCache
  | [], a, s => [(a, s)]
  | p :: rest, a, s =>
    if p.1 = a then (a, s) :: rest else p :: cacheSet rest a s

/-- External collaborators of getTokenSymbol: `hex` is the (injective,
checksummed) common.Address.Hex rendering, `helperOk` tells whether
NewERC20Helper succeeds (abi.JSON of the constant ABI string), and
`symbolCall` the outcome of ERC20Helper.GetTokenSymbol (a CallContract
round trip; none on error). -/
structure SymEnv where
  hex : EthAddr → String
  helperOk : Bool
  symbolCall : EthAddr → Option String

/-- getTokenSymbol (plasma_client.go:272-305).  Returns the symbol, the
updated cache, and whether the external symbol call was attempted. -/
def getTokenSymbol (env : SymEnv) (cache : TokenCache) (tokenAddress : EthAddr) :
    String × TokenCache × Bool :=
  match cacheGet cache tokenAddress with
  | some symbol => (symbol, cache, false)
  | none =>
    if env.hex tokenAddress = "0x0000000000000000000000000000000000000000" then
      ("XPL", cache, false)
    else if env.hex tokenAddress = "0xa0b86a33e6ba0c74d75c9abfd35e5e0b1bcceb83" then
      ("WXPL", cache, false)
    else if env.helperOk = false then
      ((env.hex tokenAddress).take 8, cache, false)
    else
      let symbol :=
        match env.symbolCall tokenAddress with
        | some s => s
        | none => (env.hex tokenAddress).take 8
      (symbol, cacheSet cache tokenAddress symbol, true)

/-- The ERC-20 log loop of extractAllTransfers (plasma_client.go:230-249),
over the receipt's logs paired with their zero-based position, threading
the token cache through the getTokenSymbol calls. -/
def extractTokenTransfers (env : SymEnv) (txHash : String) :
    TokenCache → List (Nat × EthLog) → List Transfer × TokenCache
  | cache, [] => ([], cache)
  | cache, (i, log) :: rest =>
    if isTransferLog log then
      let res := getTokenSymbol env cache log.address
      let t : Transfer :=
        { txHash := txHash
          fromAddr := topicToAddr (log.topics.getD 1 0)
          toAddr := topicToAddr (log.topics.getD 2 0)
          value := bytesToNat log.data
          tokenSymbol := res.1
          tokenAddress := log.address
          logIndex := Int.ofNat i }
      let rec' := extractTokenTransfers env txHash res.2.1 rest
      (t :: rec'.1, rec'.2)
    else extractTokenTransfers env txHash cache rest

/-- extractAllTransfers (plasma_client.go:203-252): an optional native
transfer (value > 0) followed by the token transfers decoded from the
receipt logs.  The native record's From is the recovered sender (zero
address when recovery failed, since the error is discarded), its To the
recipient (empty string, decoding to 0, when absent). -/
def extractAllTransfers (env : SymEnv) (cache : TokenCache) (tx : EthTx)
    (receipt : EthReceipt) : List Transfer × TokenCache :=
  let native : List Transfer :=
    if 0 < tx.value then
      [{ txHash := tx.hash
         fromAddr := (tx.sender.getD 0)
         toAddr := (tx.recipient.getD 0)
         value := tx.value
         tokenSymbol := "XPL"
         tokenAddress := 0
         logIndex := -1 }]
    else []
  let toks := extractTokenTransfers env tx.hash cache receipt.logs.enum
  (native ++ toks.1, toks.2)

/-- filterTransfersForAddress (plasma_client.go:254-270): keep the
transfers whose decoded From or To equals the watched address. -/
def filterTransfersForAddress (transfers : List Transfer) (address : EthAddr) :
    List Transfer :=
  transfers.filter (fun t => decide (t.fromAddr = address) || decide (t.toAddr = address))

/-- isAddressInvolved (plasma_client.go:145-172): sender match (only when
recovery succeeded), direct recipient match, or a from/to topic match on
a transfer-shaped receipt log. -/
def isAddressInvolved (tx : EthTx) (receipt : EthReceipt) (address : EthAddr) : Bool :=
  (match tx.sender with
   | some s => decide (s = address)
   | none => false) ||
  (match tx.recipient with
   | some t => decide (t = address)
   | none => false) ||
  receipt.logs.any (fun log =>
    isTransferLog log &&
    (decide (topicToAddr (log.topics.getD 1 0) = address) ||
     decide (topicToAddr (log.topics.getD 2 0) = address)))

/-- domain.WalletAddress: a raw string, used verbatim as the map key in
the wallet tracker (no normalisation there). -/
abbrev WalletAddress := String

/-- domain.UserID (int64). -/
abbrev UserID := Int

/-- The sentinel errors of internal/domain/errors.go. -/
inductive DomainError where
  | errWalletNotFound
  | errSubscriptionExists
  | errInvalidAddress
  | errConnectionFailed
  | errTransactionNotFound
deriving Repr, DecidableEq

/-- The subscribers map (map[WalletAddress][]UserID) as an association
list.  A missing key reads as the nil slice, i.e. []. -/
abbrev SubsMap := List (WalletAddress × List UserID)

def subsGet : SubsMap → WalletAddress → List UserID
  | [], _ => []
  | p :: rest, k => if p.1 = k then p.2 else subsGet rest k

def subsSet : SubsMap → WalletAddress → List UserID → SubsMap
  | [], k, v => [(k, v)]
  | p :: rest, k, v =>
    if p.1 = k then (k, v) :: rest else p :: subsSet rest k v

def subsDel : SubsMap → WalletAddress → SubsMap
  | [], _ => []
  | p :: rest, k => if p.1 = k then subsDel rest k else p :: subsDel rest k

/-- The mutable state of WalletTracker (wallet_tracker.go:13-23):
`listeners` keeps the keys of the listeners map — which addresses have a
recorded context.CancelFunc — and `subscribers` the subscribers map. -/
structure TrackerState where
  listeners : List WalletAddress
  subscribers : SubsMap
deriving Repr, DecidableEq

/-- NewWalletTracker: both maps start empty. -/
def initialState : TrackerState := { listeners := [], subscribers := [] }

/-- AddWallet (wallet_tracker.go:46-67): append the user to the address's
subscriber slice; if no listener is recorded for the address, record one
(spawning the monitor task).  Always returns nil. -/
def AddWallet (s : TrackerState) (walletAddress : WalletAddress) (userID : UserID) :
    TrackerState × Option DomainError :=
  let s1 : TrackerState :=
    { s with
      subscribers :=
        subsSet s.subscribers walletAddress (subsGet s.subscribers walletAddress ++ [userID]) }
  let s2 : TrackerState :=
    if walletAddress ∈ s1.listeners then s1
    else { s1 with listeners := s1.listeners ++ [walletAddress] }
  (s2, none)

/-- The Go removal loop: drop the first occurrence of the user. -/
def removeFirst : List UserID → UserID → List UserID
  | [], _ => []
  | x :: rest, u => if x = u then rest else x :: removeFirst rest u

/-- RemoveWallet (wallet_tracker.go:69-99): write the slice with the
first matching entry dropped (the map write happens only when a match is
found); then, if the address's slice is empty and a listener is
recorded, cancel it and delete both map entries.  Always returns nil. -/
def RemoveWallet (s : TrackerState) (walletAddress : WalletAddress) (userID : UserID) :
    TrackerState × Option DomainError :=
  let subs := subsGet s.subscribers walletAddress
  let s1 : TrackerState :=
    if userID ∈ subs then
      { s with subscribers := subsSet s.subscribers walletAddress (removeFirst subs userID) }
    else s
  let s2 : TrackerState :=
    if subsGet s1.subscribers walletAddress = [] then
      if walletAddress ∈ s1.listeners then
        { listeners := s1.listeners.filter (fun x => decide (¬ x = walletAddress))
          subscribers := subsDel s1.subscribers walletAddress }
      else s1
    else s1
  (s2, none)

/-- stopAllListeners (wallet_tracker.go:163-174): cancel every listener
and replace both maps with fresh empty ones. -/
def stopAllListeners (_ : TrackerState) : TrackerState :=
  { listeners := [], subscribers := [] }

/-- domain.Transaction, as delivered on the subscription channel. -/
structure Transaction where
  hash : String
  fromAddr : EthAddr
  toAddr : EthAddr
  blockNumber : Nat
  timestamp : Nat
  gasUsed : Nat
  gasPrice : Nat
  transfers : List Transfer
deriving Repr, DecidableEq

/-- domain.WalletNotification.  The Go struct has a dedicated top-level
Transfers field documented as holding only the transfers involving the
watched address. -/
structure WalletNotification where
  walletAddress : WalletAddress
  transaction : Transaction
  transfers : List Transfer
  subscribers : List UserID
  timestamp : Nat
deriving Repr, DecidableEq

/-- handleTransaction (wallet_tracker.go:127-161): snapshot the address's
subscriber slice under the lock; when it is empty, publish nothing;
otherwise hand the assembled notification to the publisher.  The
notification literal sets WalletAddress, Transaction, Subscribers and
Timestamp only — the Transfers field is left at its zero value (nil),
modelled as []. -/
def handleTransaction (s : TrackerState) (walletAddress : WalletAddress)
    (tx : Transaction) (now : Nat) : Option WalletNotification :=
  let subscribers := subsGet s.subscribers walletAddress
  if subscribers = [] then none
  else
    some
      { walletAddress := walletAddress
        transaction := tx
        transfers := []
        subscribers := subscribers
        timestamp := now }

/-- The Watching/NotWatched invariant of the spec's state machine: an
address has a recorded listener handle exactly when its subscriber list
is non-empty. -/
def Inv (s : TrackerState) : Prop :=
  ∀ a : WalletAddress, a ∈ s.listeners ↔ subsGet s.subscribers a ≠ []

/-! Helper lemmas about the association-list maps. -/

theorem subsGet_subsSet_self (m : SubsMap) (k : WalletAddress) (v : List UserID) :
    subsGet (subsSet m k v) k = v := by
  induction m with
  | nil => simp [subsSet, subsGet]
  | cons p rest ih =>
    by_cases h : p.1 = k
    · simp [subsSet, h, subsGet]
    · simp [subsSet, h, subsGet, ih]

theorem subsGet_subsSet_ne (m : SubsMap) (k k' : WalletAddress) (v : List UserID)
    (h : k' ≠ k) : subsGet (subsSet m k v) k' = subsGet m k' := by
  induction m with
  | nil => simp [subsSet, subsGet, Ne.symm h]
  | cons p rest ih =>
    by_cases hp : p.1 = k
    · simp [subsSet, hp, subsGet, Ne.symm h]
    · simp only [subsSet, hp, if_false, subsGet]
      by_cases hp' : p.1 = k'
      · simp [hp']
      · simp [hp', ih]

theorem subsGet_subsDel_self (m : SubsMap) (k : WalletAddress) :
    subsGet (subsDel m k) k = [] := by
  induction m with
  | nil => simp [subsDel, subsGet]
  | cons p rest ih =>
    by_cases h : p.1 = k
    · simp [subsDel, h, ih]
    · simp [subsDel, h, subsGet, ih]

theorem subsGet_subsDel_ne (m : SubsMap) (k k' : WalletAddress) (h : k' ≠ k) :
    subsGet (subsDel m k) k' = subsGet m k' := by
  induction m with
  | nil => simp [subsDel]
  | cons p rest ih =>
    by_cases hp : p.1 = k
    · subst hp
      simp [subsDel, subsGet, Ne.symm h, ih]
    · simp only [subsDel, hp, if_false, subsGet]
      by_cases hp' : p.1 = k'
      · simp [hp']
      · simp [hp', ih]

theorem cacheGet_cacheSet_self (c : TokenCache) (a : EthAddr) (s : String) :
    cacheGet (cacheSet c a s) a = some s := by
  induction c with
  | nil => simp [cacheSet, cacheGet]
  | cons p rest ih =>
    by_cases h : p.1 = a
    · simp [cacheSet, h, cacheGet]
    · simp [cacheSet, h, cacheGet, ih]

/-! Helper lemmas about transfer extraction. -/

/-- The decoded fields of the token transfers are exactly the decoded
fields of the transfer-shaped logs, in order; the cache threading only
influences the symbol, which the projection drops. -/
theorem extractTokenTransfers_proj (env : SymEnv) (hs : String) :
    ∀ (l : List (Nat × EthLog)) (cache : TokenCache),
    ((extractTokenTransfers env hs cache l).1).map
        (fun t => (t.fromAddr, t.toAddr, t.value, t.logIndex)) =
      (l.filter (fun p => isTransferLog p.2)).map
        (fun p => (topicToAddr (p.2.topics.getD 1 0), topicToAddr (p.2.topics.getD 2 0),
          bytesToNat p.2.data, Int.ofNat p.1)) := by
  intro l
  induction l with
  | nil => intro cache; rfl
  | cons p rest ih =>
    intro cache
    obtain ⟨i, log⟩ := p
    by_cases hm : isTransferLog log
    · simp [extractTokenTransfers, hm, ih]
    · simp [extractTokenTransfers, hm, ih]

/-- Every token transfer carries a non-negative log index. -/
theorem extractTokenTransfers_logIndex_nonneg (env : SymEnv) (hs : String) :
    ∀ (l : List (Nat × EthLog)) (cache : TokenCache) (t : Transfer),
    t ∈ (extractTokenTransfers env hs cache l).1 → 0 ≤ t.logIndex := by
  intro l
  induction l with
  | nil => intro cache t ht; simp [extractTokenTransfers] at ht
  | cons p rest ih =>
    intro cache t ht
    obtain ⟨i, log⟩ := p
    by_cases hm : isTransferLog log
    · simp [extractTokenTransfers, hm] at ht
      rcases ht with ht | ht
      · subst ht; exact Int.ofNat_nonneg i
      · exact ih _ t ht
    · simp [extractTokenTransfers, hm] at ht
      exact ih _ t ht

/-! Helper lemmas about the wallet listener manager. -/

theorem AddWallet_fst (s : TrackerState) (a : WalletAddress) (u : UserID) :
    (AddWallet s a u).1 =
      { listeners := if a ∈ s.listeners then s.listeners else s.listeners ++ [a]
        subscribers := subsSet s.subscribers a (subsGet s.subscribers a ++ [u]) } := by
  by_cases h : a ∈ s.listeners <;> simp [AddWallet, h]

theorem AddWallet_mem_listeners (s : TrackerState) (a : WalletAddress) (u : UserID) :
    a ∈ ((AddWallet s a u).1).listeners := by
  rw [AddWallet_fst]
  by_cases h : a ∈ s.listeners <;> simp [h]

theorem RemoveWallet_noop (s : TrackerState) (a : WalletAddress) (u : UserID)
    (hInv : Inv s) (h : subsGet s.subscribers a = [] ∨ u ∉ subsGet s.subscribers a) :
    RemoveWallet s a u = (s, none) := by
  rcases h with h | h
  · have hnl : a ∉ s.listeners := by
      intro hmem
      exact (hInv a).mp hmem h
    have hnm : u ∉ subsGet s.subscribers a := by simp [h]
    simp [RemoveWallet, hnm, h, hnl]
  · by_cases he : subsGet s.subscribers a = []
    · have hnl : a ∉ s.listeners := by
        intro hmem
        exact (hInv a).mp hmem he
      simp [RemoveWallet, h, he, hnl]
    · simp [RemoveWallet, h, he]

/-! Concrete sample inputs used by witness theorems. -/

def envA : SymEnv :=
  { hex := fun _ => "0xabcdef0123456789", helperOk := true, symbolCall := fun _ => none }

def txA : EthTx :=
  { hash := "0xt1", sender := some 1, recipient := some 2, value := 5, gasPrice := 1 }

def logA : EthLog :=
  { address := 9, topics := [transferEventSignature, 3, 4], data := [1, 0] }

def receiptA : EthReceipt := { logs := [logA], blockNumber := 1, gasUsed := 0 }

/-! Claim theorems. -/

/-- C3: for each and only each receipt log whose first topic equals the
transfer event signature and which has at least three topics, extraction
yields exactly one token transfer (the transfers with non-negative log
index), whose from/to are decoded from the second and third topics,
whose value is the big-endian integer decoded from the data payload and
whose logIndex is the log's zero-based position in the receipt's log
list, in receipt log order. -/
theorem extractAllTransfers_token_spec (env : SymEnv) (cache : TokenCache) (tx : EthTx)
    (receipt : EthReceipt) :
    (((extractAllTransfers env cache tx receipt).1).filter
        (fun t => decide (0 ≤ t.logIndex))).map
        (fun t => (t.fromAddr, t.toAddr, t.value, t.logIndex)) =
      (receipt.logs.enum.filter (fun p => isTransferLog p.2)).map
        (fun p => (topicToAddr (p.2.topics.getD 1 0), topicToAddr (p.2.topics.getD 2 0),
          bytesToNat p.2.data, Int.ofNat p.1)) := by
  have hsplit : (extractAllTransfers env cache tx receipt).1 =
      (if 0 < tx.value then
        [{ txHash := tx.hash, fromAddr := tx.sender.getD 0, toAddr := tx.recipient.getD 0,
           value := tx.value, tokenSymbol := "XPL", tokenAddress := 0, logIndex := -1 }]
       else []) ++ (extractTokenTransfers env tx.hash cache receipt.logs.enum).1 := rfl
  rw [hsplit, List.filter_append]
  have h1 :
      ((if 0 < tx.value then
        [{ txHash := tx.hash, fromAddr := tx.sender.getD 0, toAddr := tx.recipient.getD 0,
           value := tx.value, tokenSymbol := "XPL", tokenAddress := 0,
           logIndex := -1 }]
       else []) : List Transfer).filter (fun t => decide (0 ≤ t.logIndex)) = [] := by
    split <;> simp
  have h2 : ((extractTokenTransfers env tx.hash cache receipt.logs.enum).1).filter
      (fun t => decide (0 ≤ t.logIndex)) =
      (extractTokenTransfers env tx.hash cache receipt.logs.enum).1 := by
    rw [List.filter_eq_self]
    intro t ht
    simpa using extractTokenTransfers_logIndex_nonneg env tx.hash receipt.logs.enum cache t ht
  rw [h1, h2, List.nil_append, extractTokenTransfers_proj]

/-- C4: a transaction with positive native value yields exactly one
native transfer, placed first, with logIndex -1, symbol XPL and the
zero token address (all other extracted transfers have non-negative log
index); with value zero no native transfer is produced. -/
theorem extractAllTransfers_native_spec (env : SymEnv) (cache : TokenCache) (tx : EthTx)
    (receipt : EthReceipt) :
    (0 < tx.value →
      ∃ t rest, (extractAllTransfers env cache tx receipt).1 = t :: rest ∧
        t.logIndex = -1 ∧ t.tokenSymbol = "XPL" ∧ t.tokenAddress = 0 ∧
        t.value = tx.value ∧ t.fromAddr = tx.sender.getD 0 ∧ t.toAddr = tx.recipient.getD 0 ∧
        ∀ t' ∈ rest, 0 ≤ t'.logIndex) ∧
    (tx.value = 0 → ∀ t ∈ (extractAllTransfers env cache tx receipt).1, 0 ≤ t.logIndex) := by
  constructor
  · intro hv
    refine ⟨{ txHash := tx.hash, fromAddr := tx.sender.getD 0, toAddr := tx.recipient.getD 0,
              value := tx.value, tokenSymbol := "XPL", tokenAddress := 0, logIndex := -1 },
      (extractTokenTransfers env tx.hash cache receipt.logs.enum).1, ?_, rfl, rfl, rfl, rfl,
      rfl, rfl, ?_⟩
    · simp [extractAllTransfers, hv]
    · intro t' ht'
      exact extractTokenTransfers_logIndex_nonneg env tx.hash receipt.logs.enum cache t' ht'
  · intro hv t ht
    have hz : (extractAllTransfers env cache tx receipt).1 =
        (extractTokenTransfers env tx.hash cache receipt.logs.enum).1 := by
      simp [extractAllTransfers, hv]
    rw [hz] at ht
    exact extractTokenTransfers_logIndex_nonneg env tx.hash receipt.logs.enum cache t ht

/-- Witness for C4 at a concrete transaction with value 5. -/
theorem extractAllTransfers_native_spec_witness :
    0 < txA.value ∧
      ∃ t rest, (extractAllTransfers envA [] txA receiptA).1 = t :: rest ∧
        t.logIndex = -1 ∧ t.tokenSymbol = "XPL" ∧ t.tokenAddress = 0 ∧
        t.value = txA.value ∧ t.fromAddr = txA.sender.getD 0 ∧ t.toAddr = txA.recipient.getD 0 ∧
        ∀ t' ∈ rest, 0 ≤ t'.logIndex :=
  ⟨by decide, (extractAllTransfers_native_spec envA [] txA receiptA).1 (by decide)⟩

/-- C5: the involvement filter holds exactly when the address is the
recovered sender, the direct recipient, or a from/to party of a
transfer-shaped receipt log. -/
theorem isAddressInvolved_iff (tx : EthTx) (receipt : EthReceipt) (address : EthAddr) :
    isAddressInvolved tx receipt address = true ↔
      tx.sender = some address ∨ tx.recipient = some address ∨
      ∃ log, log ∈ receipt.logs ∧
        (3 ≤ log.topics.length ∧ log.topics.headD 0 = transferEventSignature) ∧
        (topicToAddr (log.topics.getD 1 0) = address ∨
         topicToAddr (log.topics.getD 2 0) = address) := by
  unfold isAddressInvolved
  cases hs : tx.sender <;> cases hr : tx.recipient <;>
    simp [isTransferLog, List.any_eq_true, Bool.and_eq_true, Bool.or_eq_true, and_assoc,
      or_assoc]

/-- Witness for C5: the sample sender address is involved in the sample
transaction. -/
theorem isAddressInvolved_iff_witness : isAddressInvolved txA receiptA 1 = true :=
  (isAddressInvolved_iff txA receiptA 1).mpr (Or.inl rfl)

/-- C6: the Watching/NotWatched invariant — a recorded listener handle
exactly for the addresses with a non-empty subscriber list — holds in
the empty initial state and is preserved by AddWallet, RemoveWallet and
shutdown (stopAllListeners). -/
theorem tracker_inv_preserved :
    Inv initialState ∧
    (∀ s a u, Inv s → Inv (AddWallet s a u).1) ∧
    (∀ s a u, Inv s → Inv (RemoveWallet s a u).1) ∧
    (∀ s, Inv s → Inv (stopAllListeners s)) := by
  refine ⟨?_, ?_, ?_, ?_⟩
  · intro a
    simp [initialState, subsGet]
  · intro s a u hInv a'
    rw [AddWallet_fst]
    dsimp only
    by_cases h : a' = a
    · subst h
      rw [subsGet_subsSet_self]
      constructor
      · intro _
        simp
      · intro _
        split
        · assumption
        · simp
    · rw [subsGet_subsSet_ne _ _ _ _ h]
      have hl : (a' ∈ (if a ∈ s.listeners then s.listeners else s.listeners ++ [a])) ↔
          a' ∈ s.listeners := by
        split
        · exact Iff.rfl
        · simp [h]
      exact hl.trans (hInv a')
  · intro s a u hInv
    by_cases hm : u ∈ subsGet s.subscribers a
    · have haL : a ∈ s.listeners := (hInv a).mpr (List.ne_nil_of_mem hm)
      by_cases h2 : removeFirst (subsGet s.subscribers a) u = []
      · have hstate : (RemoveWallet s a u).1 =
            { listeners := s.listeners.filter (fun x => decide (¬ x = a))
              subscribers := subsDel (subsSet s.subscribers a
                (removeFirst (subsGet s.subscribers a) u)) a } := by
          simp [RemoveWallet, hm, subsGet_subsSet_self, h2, haL]
        rw [hstate]
        intro a'
        by_cases h : a' = a
        · subst h
          simp [List.mem_filter, subsGet_subsDel_self]
        · simp only [List.mem_filter]
          rw [subsGet_subsDel_ne _ _ _ h, subsGet_subsSet_ne _ _ _ _ h]
          simp [h, hInv a']
      · have hstate : (RemoveWallet s a u).1 =
            { listeners := s.listeners
              subscribers :=
                subsSet s.subscribers a (removeFirst (subsGet s.subscribers a) u) } := by
          simp [RemoveWallet, hm, subsGet_subsSet_self, h2]
        rw [hstate]
        intro a'
        by_cases h : a' = a
        · subst h
          dsimp only
          rw [subsGet_subsSet_self]
          exact iff_of_true haL h2
        · dsimp only
          rw [subsGet_subsSet_ne _ _ _ _ h]
          exact hInv a'
    · rw [show (RemoveWallet s a u).1 = s from by
        rw [RemoveWallet_noop s a u hInv (Or.inr hm)]]
      exact hInv
  · intro s _ a
    simp [stopAllListeners, subsGet]

/-- Witness for C6: the invariant holds after an AddWallet from the
initial state. -/
theorem tracker_inv_preserved_witness : Inv (AddWallet initialState "0xw" 1).1 :=
  tracker_inv_preserved.2.1 initialState "0xw" 1
    (fun a => by simp [initialState, subsGet])

/-- C7: from a state where the address has no subscribers, two
AddWallet calls for the same user yield the subscriber list [u, u]; one
RemoveWallet then removes only the first matching entry, leaving [u]
with the address still watched. -/
theorem addWallet_twice_removeWallet_once (s : TrackerState) (a : WalletAddress) (u : UserID)
    (h : subsGet s.subscribers a = []) :
    subsGet ((AddWallet (AddWallet s a u).1 a u).1).subscribers a = [u, u] ∧
    subsGet ((RemoveWallet (AddWallet (AddWallet s a u).1 a u).1 a u).1).subscribers a = [u] ∧
    a ∈ ((RemoveWallet (AddWallet (AddWallet s a u).1 a u).1 a u).1).listeners := by
  have h1 : subsGet ((AddWallet s a u).1).subscribers a = [u] := by
    rw [AddWallet_fst]
    dsimp only
    rw [subsGet_subsSet_self, h]
    rfl
  have h2 : subsGet ((AddWallet (AddWallet s a u).1 a u).1).subscribers a = [u, u] := by
    rw [AddWallet_fst]
    dsimp only
    rw [subsGet_subsSet_self, h1]
    rfl
  have hmem2 : a ∈ ((AddWallet (AddWallet s a u).1 a u).1).listeners :=
    AddWallet_mem_listeners _ a u
  have hrf : removeFirst [u, u] u = [u] := by simp [removeFirst]
  have hstate : (RemoveWallet (AddWallet (AddWallet s a u).1 a u).1 a u).1 =
      { (AddWallet (AddWallet s a u).1 a u).1 with
        subscribers :=
          subsSet ((AddWallet (AddWallet s a u).1 a u).1).subscribers a [u] } := by
    simp [RemoveWallet, h2, hrf, subsGet_subsSet_self]
  refine ⟨h2, ?_, ?_⟩
  · rw [hstate]
    dsimp only
    rw [subsGet_subsSet_self]
  · rw [hstate]
    dsimp only
    exact hmem2

/-- Witness for C7 at the initial state, address "0xw", user 7. -/
theorem addWallet_twice_removeWallet_once_witness :
    subsGet ((AddWallet (AddWallet initialState "0xw" 7).1 "0xw" 7).1).subscribers "0xw" =
      [7, 7] ∧
    subsGet ((RemoveWallet (AddWallet (AddWallet initialState "0xw" 7).1 "0xw" 7).1
        "0xw" 7).1).subscribers "0xw" = [7] ∧
    "0xw" ∈ ((RemoveWallet (AddWallet (AddWallet initialState "0xw" 7).1 "0xw" 7).1
        "0xw" 7).1).listeners :=
  addWallet_twice_removeWallet_once initialState "0xw" 7 rfl

/-- C8: RemoveWallet on an address with no subscribers, or for a user
not in the address's list, returns success and leaves the whole state
(both maps) unchanged. -/
theorem removeWallet_noop_success (s : TrackerState) (a : WalletAddress) (u : UserID)
    (hInv : Inv s) (h : subsGet s.subscribers a = [] ∨ u ∉ subsGet s.subscribers a) :
    RemoveWallet s a u = (s, none) :=
  RemoveWallet_noop s a u hInv h

/-- Witness for C8: removing from the never-watched address of the
initial state is a no-op. -/
theorem removeWallet_noop_success_witness :
    RemoveWallet initialState "0xw" 3 = (initialState, none) :=
  removeWallet_noop_success initialState "0xw" 3
    (fun a => by simp [initialState, subsGet]) (Or.inl rfl)

/-- C9: handleTransaction hands a notification to the publisher exactly
when the subscriber snapshot is non-empty, and any published
notification carries that non-empty snapshot. -/
theorem handleTransaction_publish_iff (s : TrackerState) (a : WalletAddress)
    (tx : Transaction) (now : Nat) :
    ((handleTransaction s a tx now).isSome = true ↔ subsGet s.subscribers a ≠ []) ∧
    (∀ n, handleTransaction s a tx now = some n →
      n.subscribers = subsGet s.subscribers a ∧ n.subscribers ≠ []) := by
  by_cases h : subsGet s.subscribers a = []
  · constructor
    · simp [handleTransaction, h]
    · intro n hn
      simp [handleTransaction, h] at hn
  · constructor
    · simp [handleTransaction, h]
    · intro n hn
      simp only [handleTransaction, if_neg h] at hn
      injection hn with hn
      rw [← hn]
      exact ⟨rfl, h⟩

/-- Sample transaction and tracker state for the C9 witness. -/
def txB : Transaction :=
  { hash := "0xt2", fromAddr := 1, toAddr := 2, blockNumber := 1, timestamp := 0,
    gasUsed := 0, gasPrice := 0, transfers := [] }

def stateB : TrackerState := { listeners := ["0xw"], subscribers := [("0xw", [3])] }

/-- Witness for C9: with one subscriber, a notification is produced. -/
theorem handleTransaction_publish_iff_witness :
    (handleTransaction stateB "0xw" txB 0).isSome = true :=
  (handleTransaction_publish_iff stateB "0xw" txB 0).1.mpr (by decide)

/-- C10: AddWallet and RemoveWallet always return nil; in particular the
ErrInvalidAddress domain error is never returned by either. -/
theorem addRemove_always_nil (s : TrackerState) (a : WalletAddress) (u : UserID) :
    (AddWallet s a u).2 = none ∧ (RemoveWallet s a u).2 = none ∧
    (AddWallet s a u).2 ≠ some DomainError.errInvalidAddress ∧
    (RemoveWallet s a u).2 ≠ some DomainError.errInvalidAddress := by
  refine ⟨rfl, rfl, ?_, ?_⟩
  · intro hc
    rw [show (AddWallet s a u).2 = none from rfl] at hc
    exact Option.noConfusion hc
  · intro hc
    rw [show (RemoveWallet s a u).2 = none from rfl] at hc
    exact Option.noConfusion hc

/-! C1: the notification's dedicated top-level transfers field. -/

def transferC : Transfer :=
  { txHash := "0xt3", fromAddr := 7, toAddr := 8, value := 100, tokenSymbol := "TOK",
    tokenAddress := 9, logIndex := 0 }

def txC : Transaction :=
  { hash := "0xt3", fromAddr := 7, toAddr := 8, blockNumber := 2, timestamp := 0,
    gasUsed := 0, gasPrice := 0, transfers := [transferC] }

def stateC : TrackerState := { listeners := ["0xw"], subscribers := [("0xw", [3])] }

/-- C1 (code bug, concrete failing input): the published notification's
top-level transfers field is empty even though the narrowed transfer
subset for watched address 7 is the non-empty [transferC]:
handleTransaction builds the notification literal without ever setting
the Transfers field, so it stays at its zero value. -/
theorem handleTransaction_transfers_field_empty :
    ∃ n, handleTransaction stateC "0xw" txC 0 = some n ∧
      n.transfers = [] ∧
      filterTransfersForAddress txC.transfers 7 = [transferC] ∧
      n.transfers ≠ filterTransfersForAddress txC.transfers 7 ∧
      n.transaction.transfers = txC.transfers :=
  ⟨{ walletAddress := "0xw", transaction := txC, transfers := [], subscribers := [3],
     timestamp := 0 }, rfl, rfl, rfl, by decide, rfl⟩

/-! C2: caching behaviour of the degraded token symbol. -/

def envC2 : SymEnv :=
  { hex := fun _ => "0xdeadbeef12345678", helperOk := true, symbolCall := fun _ => none }

/-- C2 counterexample: with the symbol-accessor call failing for address
5, the degraded prefix symbol IS written into the cache (the cache grows
from [] to [(5, prefix)]), and a subsequent resolution of the same
address serves the cache and does not re-attempt the external call (the
attempted-call flag is false). -/
theorem getTokenSymbol_caches_degraded_counterexample :
    getTokenSymbol envC2 [] 5 = ("0xdeadbe", [(5, "0xdeadbe")], true) ∧
    getTokenSymbol envC2 [(5, "0xdeadbe")] 5 = ("0xdeadbe", [(5, "0xdeadbe")], false) :=
  ⟨rfl, rfl⟩

/-- C2 amended: when the symbol-accessor call fails (cache miss, not a
special-cased address, helper constructed), resolution returns the
truncated 8-character prefix of the address's hex representation and
writes that degraded symbol into the cache, so a subsequent resolution
of the same address returns the degraded symbol from the cache without
re-attempting the external call. -/
theorem getTokenSymbol_degraded_cached (env : SymEnv) (cache : TokenCache) (a : EthAddr)
    (hmiss : cacheGet cache a = none)
    (hz : env.hex a ≠ "0x0000000000000000000000000000000000000000")
    (hw : env.hex a ≠ "0xa0b86a33e6ba0c74d75c9abfd35e5e0b1bcceb83")
    (hok : env.helperOk = true)
    (hfail : env.symbolCall a = none) :
    getTokenSymbol env cache a =
      ((env.hex a).take 8, cacheSet cache a ((env.hex a).take 8), true) ∧
    getTokenSymbol env (cacheSet cache a ((env.hex a).take 8)) a =
      ((env.hex a).take 8, cacheSet cache a ((env.hex a).take 8), false) := by
  constructor
  · simp [getTokenSymbol, hmiss, hz, hw, hok, hfail]
  · simp [getTokenSymbol, cacheGet_cacheSet_self]

/-- Witness for the amended C2 at a concrete failing address. -/
theorem getTokenSymbol_degraded_cached_witness :
    getTokenSymbol envC2 [] 5 =
      ((envC2.hex 5).take 8, cacheSet [] 5 ((envC2.hex 5).take 8), true) ∧
    getTokenSymbol envC2 (cacheSet [] 5 ((envC2.hex 5).take 8)) 5 =
      ((envC2.hex 5).take 8, cacheSet [] 5 ((envC2.hex 5).take 8), false) :=
  getTokenSymbol_degraded_cached envC2 [] 5 rfl (by decide) (by decide) rfl rfl

end Plasma
